import Mathlib

/-!
# Verification of the monitoring-server host registry

Shallow embedding of `src/main.rs` of the `monitoring-server` repository:
the `HostInfo` / `DiskInfo` data model with its serde-derived JSON
encoding and decoding, the registry (`HashMap<String, HostInfo>` modelled
as an association list with unique keys), and the two request handlers
`update_host` and `get_hosts`.  Rust `f32`/`f64` measurement fields are
modelled as exact rationals (`Rat`): the claims under study concern
storage, identity and presence/absence, never float rounding.
-/

namespace MonitoringServer

/-- A JSON value, as handed to the serde-derived decoder by the HTTP layer.
Numbers are kept exact (`Rat`); objects are ordered field lists, matching
the token order of the wire payload. -/
inductive Json where
  | null : Json
  | bool : Bool → Json
  | num : Rat → Json
  | str : String → Json
  | arr : List Json → Json
  | obj : List (String × Json) → Json

/-- `struct DiskInfo { path, usage, size }` from `src/main.rs`. -/
structure DiskInfo where
  path : String
  usage : Rat
  size : Rat
deriving DecidableEq, Repr

/-- `struct HostInfo` from `src/main.rs`, fields in declaration order.
The four `Option` fields carry serde's
`#[serde(default, skip_serializing_if = "Option::is_none")]`. -/
structure HostInfo where
  hostname : String
  ip : String
  uptime : Rat
  cpu_usage : Rat
  cpu_frequency : Rat
  gpu_usage : Option Rat
  gpu_frequency : Option Rat
  cpu_temperature : Rat
  gpu_temperature : Option Rat
  memory_usage : Rat
  memory_max : Rat
  disks : List DiskInfo
  processes : List String
  os_name : String
  os_version : String
  os_kernel : String
  os_architecture : String
  cpu_model : String
  gpu_model : Option String
deriving DecidableEq, Repr

/-! ## The serde-derived decoder

`#[derive(Deserialize)]` on a struct requires every non-`Option` field to
be present with the right type, maps an absent or `null` optional field to
`None`, and silently ignores unknown fields. -/

/-- First object entry with the given key, as serde field lookup sees it. -/
def lookupField (fields : List (String × Json)) (k : String) : Option Json :=
  (fields.find? (fun p => p.1 == k)).map Prod.snd

/-- Decode a required string field. -/
def reqStr (fields : List (String × Json)) (k : String) : Except String String :=
  match lookupField fields k with
  | some (.str s) => .ok s
  | some _ => .error ("invalid type for field " ++ k)
  | none => .error ("missing field " ++ k)

/-- Decode a required numeric (`f32`/`f64`) field. -/
def reqNum (fields : List (String × Json)) (k : String) : Except String Rat :=
  match lookupField fields k with
  | some (.num r) => .ok r
  | some _ => .error ("invalid type for field " ++ k)
  | none => .error ("missing field " ++ k)

/-- Decode an `Option<f32>` field with `#[serde(default)]`: absent or
`null` is `none`; a number is `some`; anything else is a type error. -/
def optNum (fields : List (String × Json)) (k : String) : Except String (Option Rat) :=
  match lookupField fields k with
  | none => .ok none
  | some .null => .ok none
  | some (.num r) => .ok (some r)
  | some _ => .error ("invalid type for field " ++ k)

/-- Decode an `Option<String>` field with `#[serde(default)]`. -/
def optStr (fields : List (String × Json)) (k : String) : Except String (Option String) :=
  match lookupField fields k with
  | none => .ok none
  | some .null => .ok none
  | some (.str s) => .ok (some s)
  | some _ => .error ("invalid type for field " ++ k)

/-- The derived decoder for `DiskInfo` (all three fields required;
unknown fields ignored). -/
def decodeDiskInfo (j : Json) : Except String DiskInfo :=
  match j with
  | .obj fields => do
      let path ← reqStr fields "path"
      let usage ← reqNum fields "usage"
      let size ← reqNum fields "size"
      .ok { path, usage, size }
  | _ => .error "invalid type: expected struct DiskInfo"

/-- Decode a JSON array elementwise into `Vec<DiskInfo>`. -/
def decodeDiskList : List Json → Except String (List DiskInfo)
  | [] => .ok []
  | j :: rest => do
      let d ← decodeDiskInfo j
      let ds ← decodeDiskList rest
      .ok (d :: ds)

/-- Decode a JSON array elementwise into `Vec<String>`. -/
def decodeStrList : List Json → Except String (List String)
  | [] => .ok []
  | j :: rest =>
      match j with
      | .str s => do
          let ss ← decodeStrList rest
          .ok (s :: ss)
      | _ => .error "invalid type: expected string"

/-- Decode the required `disks: Vec<DiskInfo>` field. -/
def reqDisks (fields : List (String × Json)) : Except String (List DiskInfo) :=
  match lookupField fields "disks" with
  | some (.arr l) => decodeDiskList l
  | some _ => .error "invalid type for field disks"
  | none => .error "missing field disks"

/-- Decode the required `processes: Vec<String>` field. -/
def reqProcesses (fields : List (String × Json)) : Except String (List String) :=
  match lookupField fields "processes" with
  | some (.arr l) => decodeStrList l
  | some _ => .error "invalid type for field processes"
  | none => .error "missing field processes"

/-- Decode the fields of a JSON object into a `HostInfo`. -/
def decodeFields (fields : List (String × Json)) : Except String HostInfo := do
  let hostname ← reqStr fields "hostname"
  let ip ← reqStr fields "ip"
  let uptime ← reqNum fields "uptime"
  let cpu_usage ← reqNum fields "cpu_usage"
  let cpu_frequency ← reqNum fields "cpu_frequency"
  let gpu_usage ← optNum fields "gpu_usage"
  let gpu_frequency ← optNum fields "gpu_frequency"
  let cpu_temperature ← reqNum fields "cpu_temperature"
  let gpu_temperature ← optNum fields "gpu_temperature"
  let memory_usage ← reqNum fields "memory_usage"
  let memory_max ← reqNum fields "memory_max"
  let disks ← reqDisks fields
  let processes ← reqProcesses fields
  let os_name ← reqStr fields "os_name"
  let os_version ← reqStr fields "os_version"
  let os_kernel ← reqStr fields "os_kernel"
  let os_architecture ← reqStr fields "os_architecture"
  let cpu_model ← reqStr fields "cpu_model"
  let gpu_model ← optStr fields "gpu_model"
  .ok { hostname, ip, uptime, cpu_usage, cpu_frequency, gpu_usage, gpu_frequency,
        cpu_temperature, gpu_temperature, memory_usage, memory_max, disks, processes,
        os_name, os_version, os_kernel, os_architecture, cpu_model, gpu_model }

/-- The serde-derived `Deserialize` impl for `HostInfo`: a JSON object is
decoded field by field, anything else is a type error. -/
def decodeHostInfo (j : Json) : Except String HostInfo :=
  match j with
  | .obj fields => decodeFields fields
  | _ => .error "invalid type: expected struct HostInfo"

/-! ## The serde-derived encoder -/

/-- Entry list contributed by an optional field under
`skip_serializing_if = "Option::is_none"`: nothing when absent. -/
def optEntry (k : String) : Option Json → List (String × Json)
  | none => []
  | some j => [(k, j)]

/-- The derived `Serialize` impl for `DiskInfo`. -/
def encodeDiskInfo (d : DiskInfo) : Json :=
  .obj [("path", .str d.path), ("usage", .num d.usage), ("size", .num d.size)]

/-- Field list of the derived `Serialize` impl for `HostInfo`: fields in
declaration order, `None` optionals omitted entirely. -/
def encodeFieldsList (h : HostInfo) : List (String × Json) :=
  [("hostname", .str h.hostname), ("ip", .str h.ip), ("uptime", .num h.uptime),
   ("cpu_usage", .num h.cpu_usage), ("cpu_frequency", .num h.cpu_frequency)]
  ++ optEntry "gpu_usage" (h.gpu_usage.map Json.num)
  ++ optEntry "gpu_frequency" (h.gpu_frequency.map Json.num)
  ++ [("cpu_temperature", .num h.cpu_temperature)]
  ++ optEntry "gpu_temperature" (h.gpu_temperature.map Json.num)
  ++ [("memory_usage", .num h.memory_usage), ("memory_max", .num h.memory_max),
      ("disks", .arr (h.disks.map encodeDiskInfo)),
      ("processes", .arr (h.processes.map Json.str)),
      ("os_name", .str h.os_name), ("os_version", .str h.os_version),
      ("os_kernel", .str h.os_kernel), ("os_architecture", .str h.os_architecture),
      ("cpu_model", .str h.cpu_model)]
  ++ optEntry "gpu_model" (h.gpu_model.map Json.str)

/-- The derived `Serialize` impl for `HostInfo`. -/
def encodeHostInfo (h : HostInfo) : Json :=
  .obj (encodeFieldsList h)

/-! ## The registry

`AppState.hosts : HashMap<String, HostInfo>` is modelled as an association
list with unique keys; `HashMap::insert` replaces the entry when the key
is present and appends it otherwise. -/

/-- The registry state: the map inside `AppState.hosts`. -/
abbrev Registry := List (String × HostInfo)

/-- `AppState::default()`: the empty map. -/
def emptyRegistry : Registry := []

/-- `HashMap::insert(k, v)`: replace the entry when the key is present,
append otherwise. -/
def mapInsert (reg : Registry) (k : String) (v : HostInfo) : Registry :=
  if reg.any (fun p => p.1 == k) then
    reg.map (fun p => if p.1 == k then (k, v) else p)
  else reg ++ [(k, v)]

/-- `hosts.insert(host.ip.clone(), host)`: the registry upsert. -/
def upsert (reg : Registry) (host : HostInfo) : Registry :=
  mapInsert reg host.ip host

/-- `hosts.values().cloned().collect::<Vec<_>>()`: the snapshot. -/
def snapshot (reg : Registry) : List HostInfo :=
  reg.map Prod.snd

/-- Map lookup, for stating what a key is bound to. -/
def lookupHost (reg : Registry) (k : String) : Option HostInfo :=
  (reg.find? (fun p => p.1 == k)).map Prod.snd

/-! ## The handlers -/

/-- The `Result<Json<HostInfo>, JsonRejection>` argument of `update_host`:
the axum extractor yields a syntax rejection for a body that is not valid
JSON, and otherwise runs the serde-derived decoder. -/
def extractHostInfo (body : Except String Json) : Except String HostInfo :=
  match body with
  | .error e => .error e
  | .ok j => decodeHostInfo j

/-- `StatusCode::UNPROCESSABLE_ENTITY`. -/
def unprocessableEntity : Nat := 422

/-- `async fn update_host`: on a decoded report, insert it at key
`host.ip` and answer `"ok"`; on a rejection, leave the state alone and
answer 422 with the rejection text. -/
def update_host (reg : Registry) (body : Except String Json) :
    Registry × Except (Nat × String) String :=
  match extractHostInfo body with
  | .ok host => (upsert reg host, .ok "ok")
  | .error rej => (reg, .error (unprocessableEntity, rej))

/-- `async fn get_hosts`: lock the map, clone the values out; the state
component records that the map itself is untouched. -/
def get_hosts (reg : Registry) : Registry × List HostInfo :=
  (reg, snapshot reg)

/-! ## Registry invariant and lemmas -/

/-- Well-formedness of the registry state, maintained by the handlers:
keys are unique (`HashMap` semantics) and every entry is stored under its
own report's `ip` (entries are only ever created by `upsert`). -/
def Registry.WF (reg : Registry) : Prop :=
  (reg.map Prod.fst).Nodup ∧ ∀ p ∈ reg, p.1 = p.2.ip

/-! ## Concrete reports for instantiating the theorems -/

/-- A concrete schema-valid report (the one the repository's own
`post_host_ok` test posts). -/
def sampleHost : HostInfo :=
  { hostname := "test-host", ip := "127.0.0.1", uptime := 123,
    cpu_usage := 50, cpu_frequency := 3, gpu_usage := none, gpu_frequency := none,
    cpu_temperature := 60, gpu_temperature := none, memory_usage := 4, memory_max := 16,
    disks := [], processes := [], os_name := "TestOS", os_version := "1.0",
    os_kernel := "6.0", os_architecture := "x86_64", cpu_model := "TestCPU",
    gpu_model := none }

/-- A concrete schema-valid report whose `ip` is the empty string. -/
def emptyIpHost : HostInfo := { sampleHost with ip := "" }

/-- The first report of concrete scenario 3: ip `"10.0.0.1"`,
`cpu_usage` 10. -/
def reportA : HostInfo := { sampleHost with ip := "10.0.0.1", cpu_usage := 10 }

/-- The second report of concrete scenario 3: same ip, `cpu_usage` 90. -/
def reportB : HostInfo := { sampleHost with ip := "10.0.0.1", cpu_usage := 90 }

/-- Whether the encoded form carries an entry for the given key at all
(omitted vs `null` is observable here: a `null` entry is still an
entry). -/
def Json.hasField (j : Json) (k : String) : Bool :=
  match j with
  | .obj fields => fields.any (fun p => p.1 == k)
  | _ => false

/-- The nineteen field keys the derived `HostInfo` decoder recognizes. -/
def knownKeys : List String :=
  ["hostname", "ip", "uptime", "cpu_usage", "cpu_frequency", "gpu_usage",
   "gpu_frequency", "cpu_temperature", "gpu_temperature", "memory_usage",
   "memory_max", "disks", "processes", "os_name", "os_version", "os_kernel",
   "os_architecture", "cpu_model", "gpu_model"]

/-- A concrete payload for `sampleHost` with an unrecognized field
prepended. -/
def junkedBody : List (String × Json) :=
  ("junk_data", .str "ignored") :: encodeFieldsList sampleHost

theorem WF_empty : Registry.WF emptyRegistry :=
  ⟨List.nodup_nil, fun p hp => absurd hp (List.not_mem_nil p)⟩

theorem find?_replace_self (reg : Registry) (k : String) (v : HostInfo)
    (h : reg.any (fun p => p.1 == k) = true) :
    (reg.map (fun p => if p.1 == k then (k, v) else p)).find? (fun p => p.1 == k) =
      some (k, v) := by
  induction reg with
  | nil => simp at h
  | cons p rest ih =>
    simp only [List.map_cons]
    by_cases hp : (p.1 == k) = true
    · rw [if_pos hp]
      exact List.find?_cons_of_pos _ (by simp)
    · rw [if_neg hp, List.find?_cons_of_neg (p := fun (q : String × HostInfo) => q.1 == k) _ hp]
      apply ih
      simp only [List.any_cons, Bool.or_eq_true] at h
      rcases h with h | h
      · exact absurd h hp
      · exact h

theorem lookupHost_mapInsert_self (reg : Registry) (k : String) (v : HostInfo) :
    lookupHost (mapInsert reg k v) k = some v := by
  unfold mapInsert lookupHost
  by_cases hany : reg.any (fun p => p.1 == k) = true
  · rw [if_pos hany, find?_replace_self reg k v hany]
    rfl
  · rw [if_neg hany]
    have hnone : reg.find? (fun p => p.1 == k) = none := by
      rw [List.find?_eq_none]
      intro p hp hpk
      exact hany (List.any_eq_true.mpr ⟨p, hp, hpk⟩)
    rw [List.find?_append, hnone]
    rw [show List.find? (fun p => p.1 == k) [(k, v)] = some (k, v) from
      List.find?_cons_of_pos _ (by simp)]
    rfl

theorem find?_replace_ne (reg : Registry) (k k' : String) (v : HostInfo) (hne : k' ≠ k) :
    (reg.map (fun p => if p.1 == k then (k, v) else p)).find? (fun p => p.1 == k') =
      reg.find? (fun p => p.1 == k') := by
  induction reg with
  | nil => rfl
  | cons p rest ih =>
    simp only [List.map_cons]
    by_cases hp : (p.1 == k) = true
    · have hpk : p.1 = k := eq_of_beq hp
      have h1 : ¬ ((k, v).1 == k') = true := by
        simp only [beq_iff_eq]
        exact fun hg => hne hg.symm
      have h2 : ¬ (p.1 == k') = true := by
        simp only [beq_iff_eq, hpk]
        exact fun hg => hne hg.symm
      rw [if_pos hp, List.find?_cons_of_neg (p := fun (q : String × HostInfo) => q.1 == k') _ h1,
        List.find?_cons_of_neg (p := fun (q : String × HostInfo) => q.1 == k') _ h2]
      exact ih
    · rw [if_neg hp]
      by_cases hq : (p.1 == k') = true
      · rw [List.find?_cons_of_pos (p := fun (q : String × HostInfo) => q.1 == k') _ hq,
          List.find?_cons_of_pos (p := fun (q : String × HostInfo) => q.1 == k') _ hq]
      · rw [List.find?_cons_of_neg (p := fun (q : String × HostInfo) => q.1 == k') _ hq,
          List.find?_cons_of_neg (p := fun (q : String × HostInfo) => q.1 == k') _ hq]
        exact ih

theorem lookupHost_mapInsert_ne (reg : Registry) (k k' : String) (v : HostInfo)
    (hne : k' ≠ k) :
    lookupHost (mapInsert reg k v) k' = lookupHost reg k' := by
  unfold mapInsert lookupHost
  by_cases hany : reg.any (fun p => p.1 == k) = true
  · rw [if_pos hany, find?_replace_ne reg k k' v hne]
  · rw [if_neg hany]
    have h1 : ¬ ((k, v).1 == k') = true := by
      simp only [beq_iff_eq]
      exact fun hg => hne hg.symm
    rw [List.find?_append]
    rw [show List.find? (fun p => p.1 == k') [(k, v)] = none from
      List.find?_eq_none.mpr (by
        intro x hx
        simp only [List.mem_singleton] at hx
        subst hx
        exact h1)]
    cases reg.find? (fun p => p.1 == k') <;> rfl

theorem WF_upsert (reg : Registry) (host : HostInfo) (hwf : Registry.WF reg) :
    Registry.WF (upsert reg host) := by
  obtain ⟨hnd, hkey⟩ := hwf
  unfold upsert mapInsert
  by_cases hany : reg.any (fun p => p.1 == host.ip) = true
  · rw [if_pos hany]
    constructor
    · have hkeys : (reg.map (fun p => if p.1 == host.ip then (host.ip, host) else p)).map
          Prod.fst = reg.map Prod.fst := by
        rw [List.map_map]
        apply List.map_congr_left
        intro p _
        by_cases hp : (p.1 == host.ip) = true
        · have hpk : p.1 = host.ip := eq_of_beq hp
          show Prod.fst (if (p.1 == host.ip) = true then (host.ip, host) else p) = p.1
          rw [if_pos hp]
          exact hpk.symm
        · show Prod.fst (if (p.1 == host.ip) = true then (host.ip, host) else p) = p.1
          rw [if_neg hp]
      rw [hkeys]; exact hnd
    · intro p hp
      rcases List.mem_map.mp hp with ⟨q, hq, hfq⟩
      by_cases hqk : (q.1 == host.ip) = true
      · rw [if_pos hqk] at hfq
        rw [← hfq]
      · rw [if_neg hqk] at hfq
        rw [← hfq]; exact hkey q hq
  · rw [if_neg hany]
    constructor
    · rw [List.map_append, List.nodup_append]
      refine ⟨hnd, by simp, ?_⟩
      intro a ha hb
      simp only [List.map_cons, List.map_nil, List.mem_singleton] at hb
      subst hb
      rcases List.mem_map.mp ha with ⟨q, hq, hfq⟩
      have hno : ¬ (q.1 == host.ip) = true := by
        intro hc
        exact hany (List.any_eq_true.mpr ⟨q, hq, hc⟩)
      apply hno
      simp only [beq_iff_eq]
      exact hfq
    · intro p hp
      rcases List.mem_append.mp hp with hp | hp
      · exact hkey p hp
      · simp only [List.mem_singleton] at hp
        subst hp; rfl

theorem filter_snapshot (reg : Registry) (hwf : Registry.WF reg) (k : String) :
    (snapshot reg).filter (fun h => h.ip == k) = (lookupHost reg k).toList := by
  induction reg with
  | nil => rfl
  | cons p rest ih =>
    obtain ⟨hnd, hkey⟩ := hwf
    simp only [List.map_cons, List.nodup_cons] at hnd
    have hwfr : Registry.WF rest := ⟨hnd.2, fun q hq => hkey q (List.mem_cons_of_mem p hq)⟩
    have hpip : p.1 = p.2.ip := hkey p (List.mem_cons_self p rest)
    by_cases hp : (p.1 == k) = true
    · have hk : p.1 = k := eq_of_beq hp
      have hcond : (p.2.ip == k) = true := by rw [← hpip]; exact hp
      have hrest : (snapshot rest).filter (fun h => h.ip == k) = [] := by
        rw [List.filter_eq_nil_iff]
        intro r hr
        rcases List.mem_map.mp hr with ⟨q, hq, hfq⟩
        have hqk : q.1 = q.2.ip := hkey q (List.mem_cons_of_mem p hq)
        intro hc
        have hrk : r.ip = k := eq_of_beq hc
        apply hnd.1
        rw [List.mem_map]
        refine ⟨q, hq, ?_⟩
        show q.1 = p.1
        rw [hqk, hfq, hrk, hk]
      show (List.filter (fun h => h.ip == k) (p.2 :: snapshot rest)) =
        (lookupHost (p :: rest) k).toList
      rw [List.filter_cons_of_pos (p := fun (h : HostInfo) => h.ip == k) hcond, hrest]
      unfold lookupHost
      rw [List.find?_cons_of_pos (p := fun (q : String × HostInfo) => q.1 == k) _ hp]
      rfl
    · have hcond : ¬ (p.2.ip == k) = true := by rw [← hpip]; exact hp
      show (List.filter (fun h => h.ip == k) (p.2 :: snapshot rest)) =
        (lookupHost (p :: rest) k).toList
      rw [List.filter_cons_of_neg (p := fun (h : HostInfo) => h.ip == k) hcond]
      unfold lookupHost
      rw [List.find?_cons_of_neg (p := fun (q : String × HostInfo) => q.1 == k) _ hp]
      exact ih hwfr

/-! ## The claims -/

/-- C5: a snapshot taken on a freshly created registry, before any upsert,
is the empty sequence; `get_hosts` is a total function, so it never
fails. -/
theorem snapshot_of_fresh_registry_empty :
    (get_hosts emptyRegistry).2 = [] := rfl

/-- C8: `get_hosts` is a pure read: the registry after the call is
exactly the registry before it, and the returned sequence consists of
value-copies of the stored reports (one per entry, in store order). -/
theorem get_hosts_pure_read (reg : Registry) :
    (get_hosts reg).1 = reg ∧
    (get_hosts reg).2 = reg.map Prod.snd ∧
    ∀ h ∈ (get_hosts reg).2, ∃ k, (k, h) ∈ reg := by
  refine ⟨rfl, rfl, ?_⟩
  intro h hh
  rcases List.mem_map.mp hh with ⟨q, hq, hfq⟩
  exact ⟨q.1, by rw [← hfq]; exact hq⟩

/-- C1: upserting two reports carrying the same `ip` leaves exactly one
entry for that `ip` in the snapshot, and that entry is exactly the second
report — a pure overwrite, no merge. -/
theorem upsert_same_ip_overwrites (reg : Registry) (r1 r2 : HostInfo)
    (hwf : Registry.WF reg) (hip : r1.ip = r2.ip) :
    (get_hosts (upsert (upsert reg r1) r2)).2.filter (fun h => h.ip == r2.ip) = [r2] := by
  have hwf2 : Registry.WF (upsert (upsert reg r1) r2) :=
    WF_upsert _ r2 (WF_upsert _ r1 hwf)
  show (snapshot (upsert (upsert reg r1) r2)).filter (fun h => h.ip == r2.ip) = [r2]
  rw [filter_snapshot _ hwf2]
  rw [show upsert (upsert reg r1) r2 = mapInsert (upsert reg r1) r2.ip r2 from rfl]
  rw [lookupHost_mapInsert_self]
  rfl

/-- C6: upserting reports for two distinct `ip`s yields a snapshot
containing an entry for each, each equal to its own report and unaffected
by the other upsert. -/
theorem upsert_distinct_ips_isolated (reg : Registry) (r1 r2 : HostInfo)
    (hwf : Registry.WF reg) (hne : r1.ip ≠ r2.ip) :
    (get_hosts (upsert (upsert reg r1) r2)).2.filter (fun h => h.ip == r1.ip) = [r1] ∧
    (get_hosts (upsert (upsert reg r1) r2)).2.filter (fun h => h.ip == r2.ip) = [r2] := by
  have hwf2 : Registry.WF (upsert (upsert reg r1) r2) :=
    WF_upsert _ r2 (WF_upsert _ r1 hwf)
  constructor
  · show (snapshot (upsert (upsert reg r1) r2)).filter (fun h => h.ip == r1.ip) = [r1]
    rw [filter_snapshot _ hwf2]
    rw [show upsert (upsert reg r1) r2 = mapInsert (upsert reg r1) r2.ip r2 from rfl]
    rw [lookupHost_mapInsert_ne _ _ _ _ hne]
    rw [show upsert reg r1 = mapInsert reg r1.ip r1 from rfl]
    rw [lookupHost_mapInsert_self]
    rfl
  · show (snapshot (upsert (upsert reg r1) r2)).filter (fun h => h.ip == r2.ip) = [r2]
    rw [filter_snapshot _ hwf2]
    rw [show upsert (upsert reg r1) r2 = mapInsert (upsert reg r1) r2.ip r2 from rfl]
    rw [lookupHost_mapInsert_self]
    rfl

theorem upsert_same_ip_overwrites_witness :
    Registry.WF emptyRegistry ∧ reportA.ip = reportB.ip ∧
    (get_hosts (upsert (upsert emptyRegistry reportA) reportB)).2.filter
      (fun h => h.ip == reportB.ip) = [reportB] :=
  ⟨WF_empty, rfl, upsert_same_ip_overwrites emptyRegistry reportA reportB WF_empty rfl⟩

theorem upsert_distinct_ips_isolated_witness :
    Registry.WF emptyRegistry ∧ sampleHost.ip ≠ reportB.ip ∧
    ((get_hosts (upsert (upsert emptyRegistry sampleHost) reportB)).2.filter
        (fun h => h.ip == sampleHost.ip) = [sampleHost] ∧
     (get_hosts (upsert (upsert emptyRegistry sampleHost) reportB)).2.filter
        (fun h => h.ip == reportB.ip) = [reportB]) :=
  ⟨WF_empty, by decide,
    upsert_distinct_ips_isolated emptyRegistry sampleHost reportB WF_empty (by decide)⟩

/-! ## Handler claims -/

/-- C2: when the payload fails to decode as a `HostInfo`, `update_host`
returns a 422 client error carrying the rejection text, leaves the
registry untouched, and a subsequent snapshot equals the one before the
request. -/
theorem update_host_rejects_bad_payload (reg : Registry) (body : Except String Json)
    (e : String) (herr : extractHostInfo body = .error e) :
    update_host reg body = (reg, .error (unprocessableEntity, e)) ∧
    (get_hosts (update_host reg body).1).2 = (get_hosts reg).2 := by
  unfold update_host
  rw [herr]
  exact ⟨rfl, rfl⟩

theorem update_host_rejects_bad_payload_witness :
    extractHostInfo (.ok (.obj [])) = .error "missing field hostname" ∧
    (update_host emptyRegistry (.ok (.obj [])) =
      (emptyRegistry, .error (unprocessableEntity, "missing field hostname")) ∧
    (get_hosts (update_host emptyRegistry (.ok (.obj []))).1).2 =
      (get_hosts emptyRegistry).2) :=
  ⟨rfl, update_host_rejects_bad_payload emptyRegistry (.ok (.obj []))
    "missing field hostname" rfl⟩

/-- C7: once the payload has decoded to a structurally valid report, the
write path cannot fail: it performs the map insertion at key `host.ip`
and answers the success indicator `"ok"`. -/
theorem update_host_decoded_cannot_fail (reg : Registry) (body : Except String Json)
    (host : HostInfo) (hok : extractHostInfo body = .ok host) :
    update_host reg body = (upsert reg host, .ok "ok") := by
  unfold update_host
  rw [hok]

theorem update_host_decoded_cannot_fail_witness :
    extractHostInfo (.ok (encodeHostInfo sampleHost)) = .ok sampleHost ∧
    update_host emptyRegistry (.ok (encodeHostInfo sampleHost)) =
      (upsert emptyRegistry sampleHost, .ok "ok") :=
  ⟨rfl, update_host_decoded_cannot_fail emptyRegistry
    (.ok (encodeHostInfo sampleHost)) sampleHost rfl⟩

/-- C4 counterexample: a report whose `ip` is the empty string is *not*
rejected upstream — `update_host` decodes it, answers `"ok"`, and stores
it, so the empty string does become a registry key. -/
theorem empty_ip_report_accepted :
    extractHostInfo (.ok (encodeHostInfo emptyIpHost)) = .ok emptyIpHost ∧
    (update_host emptyRegistry (.ok (encodeHostInfo emptyIpHost))).2 = .ok "ok" ∧
    "" ∈ (update_host emptyRegistry (.ok (encodeHostInfo emptyIpHost))).1.map Prod.fst := by
  refine ⟨rfl, rfl, by decide⟩

/-- C4 (amended): the write path applies no `ip` validation — any
decoded report, its `ip` empty or not, is upserted under key
`report.ip`; the invariant that actually holds is that every registry
key equals its stored report's `ip` field. -/
theorem upsert_preserves_key_eq_ip (reg : Registry) (host : HostInfo)
    (hkeys : ∀ p ∈ reg, p.1 = p.2.ip) :
    ∀ p ∈ upsert reg host, p.1 = p.2.ip := by
  unfold upsert mapInsert
  by_cases hany : reg.any (fun p => p.1 == host.ip) = true
  · rw [if_pos hany]
    intro p hp
    rcases List.mem_map.mp hp with ⟨q, hq, hfq⟩
    by_cases hqk : (q.1 == host.ip) = true
    · rw [if_pos hqk] at hfq
      rw [← hfq]
    · rw [if_neg hqk] at hfq
      rw [← hfq]; exact hkeys q hq
  · rw [if_neg hany]
    intro p hp
    rcases List.mem_append.mp hp with hp | hp
    · exact hkeys p hp
    · simp only [List.mem_singleton] at hp
      subst hp; rfl

theorem upsert_preserves_key_eq_ip_witness :
    (∀ p ∈ emptyRegistry, p.1 = p.2.ip) ∧
    ∀ p ∈ upsert emptyRegistry emptyIpHost, p.1 = p.2.ip :=
  ⟨by decide, upsert_preserves_key_eq_ip emptyRegistry emptyIpHost (by decide)⟩

/-! ## Codec lemmas -/

theorem ok_bind {α β : Type} (a : α) (f : α → Except String β) :
    (Except.ok a : Except String α) >>= f = f a := rfl

theorem find?_optEntry_ne (k kk : String) (v : Option Json) (h : (kk == k) = false) :
    (optEntry kk v).find? (fun p => p.1 == k) = none := by
  cases v <;> simp [optEntry, h]

theorem any_optEntry_ne (k kk : String) (v : Option Json) (h : (kk == k) = false) :
    (optEntry kk v).any (fun p => p.1 == k) = false := by
  cases v <;> simp [optEntry, h]

theorem decodeDiskInfo_encode (d : DiskInfo) : decodeDiskInfo (encodeDiskInfo d) = .ok d := by
  simp [decodeDiskInfo, encodeDiskInfo, reqStr, reqNum, lookupField, ok_bind]

theorem decodeDiskList_encode (l : List DiskInfo) :
    decodeDiskList (l.map encodeDiskInfo) = .ok l := by
  induction l with
  | nil => rfl
  | cons d rest ih => simp [decodeDiskList, decodeDiskInfo_encode, ih, ok_bind]

theorem decodeStrList_map (l : List String) :
    decodeStrList (l.map Json.str) = .ok l := by
  induction l with
  | nil => rfl
  | cons s rest ih => simp [decodeStrList, ih, ok_bind]

theorem decodeFields_encode (h : HostInfo) : decodeFields (encodeFieldsList h) = .ok h := by
  obtain ⟨f1, f2, f3, f4, f5, g1, g2, f6, g3, f7, f8, f9, f10, f11, f12, f13, f14, f15, g4⟩ := h
  cases g1 <;> cases g2 <;> cases g3 <;> cases g4 <;>
    simp [decodeFields, encodeFieldsList, optEntry, reqStr, reqNum, optNum, optStr,
      reqDisks, reqProcesses, lookupField, List.find?_append,
      decodeDiskList_encode, decodeStrList_map, ok_bind, find?_optEntry_ne]

theorem hasField_encode_gpu_usage (h : HostInfo) :
    (encodeHostInfo h).hasField "gpu_usage" = h.gpu_usage.isSome := by
  show (encodeFieldsList h).any (fun p => p.1 == "gpu_usage") = h.gpu_usage.isSome
  simp only [encodeFieldsList, List.any_append]
  rw [any_optEntry_ne "gpu_usage" "gpu_frequency" _ (by simp),
      any_optEntry_ne "gpu_usage" "gpu_temperature" _ (by simp),
      any_optEntry_ne "gpu_usage" "gpu_model" _ (by simp)]
  cases h.gpu_usage <;> simp [optEntry]

theorem hasField_encode_gpu_frequency (h : HostInfo) :
    (encodeHostInfo h).hasField "gpu_frequency" = h.gpu_frequency.isSome := by
  show (encodeFieldsList h).any (fun p => p.1 == "gpu_frequency") = h.gpu_frequency.isSome
  simp only [encodeFieldsList, List.any_append]
  rw [any_optEntry_ne "gpu_frequency" "gpu_usage" _ (by simp),
      any_optEntry_ne "gpu_frequency" "gpu_temperature" _ (by simp),
      any_optEntry_ne "gpu_frequency" "gpu_model" _ (by simp)]
  cases h.gpu_frequency <;> simp [optEntry]

theorem hasField_encode_gpu_temperature (h : HostInfo) :
    (encodeHostInfo h).hasField "gpu_temperature" = h.gpu_temperature.isSome := by
  show (encodeFieldsList h).any (fun p => p.1 == "gpu_temperature") = h.gpu_temperature.isSome
  simp only [encodeFieldsList, List.any_append]
  rw [any_optEntry_ne "gpu_temperature" "gpu_usage" _ (by simp),
      any_optEntry_ne "gpu_temperature" "gpu_frequency" _ (by simp),
      any_optEntry_ne "gpu_temperature" "gpu_model" _ (by simp)]
  cases h.gpu_temperature <;> simp [optEntry]

theorem hasField_encode_gpu_model (h : HostInfo) :
    (encodeHostInfo h).hasField "gpu_model" = h.gpu_model.isSome := by
  show (encodeFieldsList h).any (fun p => p.1 == "gpu_model") = h.gpu_model.isSome
  simp only [encodeFieldsList, List.any_append]
  rw [any_optEntry_ne "gpu_model" "gpu_usage" _ (by simp),
      any_optEntry_ne "gpu_model" "gpu_frequency" _ (by simp),
      any_optEntry_ne "gpu_model" "gpu_temperature" _ (by simp)]
  cases h.gpu_model <;> simp [optEntry]

/-- C3: encoding a Host Report and decoding the result restores the
original value exactly (all required fields equal, optional fields
present after the round trip iff present before), and a `none` optional
field is omitted from the encoded object entirely — no entry, not a
`null` entry. -/
theorem hostinfo_roundtrip (h : HostInfo) :
    decodeHostInfo (encodeHostInfo h) = .ok h ∧
    (encodeHostInfo h).hasField "gpu_usage" = h.gpu_usage.isSome ∧
    (encodeHostInfo h).hasField "gpu_frequency" = h.gpu_frequency.isSome ∧
    (encodeHostInfo h).hasField "gpu_temperature" = h.gpu_temperature.isSome ∧
    (encodeHostInfo h).hasField "gpu_model" = h.gpu_model.isSome :=
  ⟨decodeFields_encode h, hasField_encode_gpu_usage h, hasField_encode_gpu_frequency h,
   hasField_encode_gpu_temperature h, hasField_encode_gpu_model h⟩

/-! ## Unknown-field tolerance -/

theorem reqStr_congr (f1 f2 : List (String × Json)) (k : String)
    (h : lookupField f1 k = lookupField f2 k) : reqStr f1 k = reqStr f2 k := by
  unfold reqStr; rw [h]

theorem reqNum_congr (f1 f2 : List (String × Json)) (k : String)
    (h : lookupField f1 k = lookupField f2 k) : reqNum f1 k = reqNum f2 k := by
  unfold reqNum; rw [h]

theorem optNum_congr (f1 f2 : List (String × Json)) (k : String)
    (h : lookupField f1 k = lookupField f2 k) : optNum f1 k = optNum f2 k := by
  unfold optNum; rw [h]

theorem optStr_congr (f1 f2 : List (String × Json)) (k : String)
    (h : lookupField f1 k = lookupField f2 k) : optStr f1 k = optStr f2 k := by
  unfold optStr; rw [h]

theorem reqDisks_congr (f1 f2 : List (String × Json))
    (h : lookupField f1 "disks" = lookupField f2 "disks") : reqDisks f1 = reqDisks f2 := by
  unfold reqDisks; rw [h]

theorem reqProcesses_congr (f1 f2 : List (String × Json))
    (h : lookupField f1 "processes" = lookupField f2 "processes") :
    reqProcesses f1 = reqProcesses f2 := by
  unfold reqProcesses; rw [h]

theorem decodeFields_congr (f1 f2 : List (String × Json))
    (h : ∀ k ∈ knownKeys, lookupField f1 k = lookupField f2 k) :
    decodeFields f1 = decodeFields f2 := by
  simp only [decodeFields]
  rw [reqStr_congr _ _ _ (h "hostname" (by decide)),
      reqStr_congr _ _ _ (h "ip" (by decide)),
      reqNum_congr _ _ _ (h "uptime" (by decide)),
      reqNum_congr _ _ _ (h "cpu_usage" (by decide)),
      reqNum_congr _ _ _ (h "cpu_frequency" (by decide)),
      optNum_congr _ _ _ (h "gpu_usage" (by decide)),
      optNum_congr _ _ _ (h "gpu_frequency" (by decide)),
      reqNum_congr _ _ _ (h "cpu_temperature" (by decide)),
      optNum_congr _ _ _ (h "gpu_temperature" (by decide)),
      reqNum_congr _ _ _ (h "memory_usage" (by decide)),
      reqNum_congr _ _ _ (h "memory_max" (by decide)),
      reqDisks_congr _ _ (h "disks" (by decide)),
      reqProcesses_congr _ _ (h "processes" (by decide)),
      reqStr_congr _ _ _ (h "os_name" (by decide)),
      reqStr_congr _ _ _ (h "os_version" (by decide)),
      reqStr_congr _ _ _ (h "os_kernel" (by decide)),
      reqStr_congr _ _ _ (h "os_architecture" (by decide)),
      reqStr_congr _ _ _ (h "cpu_model" (by decide)),
      optStr_congr _ _ _ (h "gpu_model" (by decide))]

theorem find?_filter_known (fields : List (String × Json)) (k : String)
    (hk : knownKeys.contains k = true) :
    (fields.filter (fun p => knownKeys.contains p.1)).find? (fun p => p.1 == k) =
      fields.find? (fun p => p.1 == k) := by
  induction fields with
  | nil => rfl
  | cons p rest ih =>
    by_cases hpc : knownKeys.contains p.1 = true
    · rw [List.filter_cons_of_pos (p := fun (q : String × Json) => knownKeys.contains q.1) hpc]
      by_cases hpk : (p.1 == k) = true
      · rw [List.find?_cons_of_pos (p := fun (q : String × Json) => q.1 == k) _ hpk,
            List.find?_cons_of_pos (p := fun (q : String × Json) => q.1 == k) _ hpk]
      · rw [List.find?_cons_of_neg (p := fun (q : String × Json) => q.1 == k) _ hpk,
            List.find?_cons_of_neg (p := fun (q : String × Json) => q.1 == k) _ hpk]
        exact ih
    · rw [List.filter_cons_of_neg (p := fun (q : String × Json) => knownKeys.contains q.1) hpc]
      have hpk : ¬ (p.1 == k) = true := by
        intro hc
        have hpe : p.1 = k := eq_of_beq hc
        rw [hpe] at hpc
        exact hpc hk
      rw [List.find?_cons_of_neg (p := fun (q : String × Json) => q.1 == k) _ hpk]
      exact ih

theorem lookupField_filter_known (fields : List (String × Json)) (k : String)
    (hk : knownKeys.contains k = true) :
    lookupField (fields.filter (fun p => knownKeys.contains p.1)) k =
      lookupField fields k := by
  unfold lookupField
  rw [find?_filter_known fields k hk]

/-- C10: the derived decoder tolerates unknown fields — any JSON object
whose recognized fields alone decode to a report also decodes as a whole
to that same report (the unrecognized entries are silently dropped), and
the write path then performs the upsert rather than rejecting. -/
theorem decode_tolerates_unknown_fields (fields : List (String × Json)) (host : HostInfo)
    (hdec : decodeHostInfo (.obj (fields.filter (fun p => knownKeys.contains p.1))) =
      .ok host) :
    decodeHostInfo (.obj fields) = .ok host ∧
    ∀ reg : Registry, update_host reg (.ok (.obj fields)) = (upsert reg host, .ok "ok") := by
  have hc : ∀ k ∈ knownKeys,
      lookupField (fields.filter (fun p => knownKeys.contains p.1)) k =
        lookupField fields k := by
    intro k hk
    exact lookupField_filter_known fields k (List.elem_iff.mpr hk)
  have hd : decodeHostInfo (.obj fields) = .ok host := by
    show decodeFields fields = .ok host
    rw [← decodeFields_congr _ _ hc]
    exact hdec
  refine ⟨hd, ?_⟩
  intro reg
  unfold update_host
  rw [show extractHostInfo (.ok (.obj fields)) = .ok host from hd]

theorem decode_tolerates_unknown_fields_witness :
    decodeHostInfo (.obj (junkedBody.filter (fun p => knownKeys.contains p.1))) =
      .ok sampleHost ∧
    (decodeHostInfo (.obj junkedBody) = .ok sampleHost ∧
     ∀ reg : Registry,
       update_host reg (.ok (.obj junkedBody)) = (upsert reg sampleHost, .ok "ok")) :=
  ⟨rfl, decode_tolerates_unknown_fields junkedBody sampleHost rfl⟩

end MonitoringServer
